import Mathlib

/- Shallow embedding of `pkg/ec2pricing/ec2pricing.go` from the
amazon-ec2-instance-selector repository: the dual price cache and the
time-weighted spot-price aggregation.

Modelling conventions:
* Go `float64` values are modelled as exact rationals `ℚ`.  A Go
  floating-point division whose denominator is `0` produces a
  non-finite value (`NaN` for `0/0`, `±Inf` otherwise); such
  non-finite outcomes are modelled as `none : Option ℚ`, and a
  `NaN` operand propagates through additions, as in IEEE arithmetic.
* Go `time.Time` values are modelled as rational numbers of minutes,
  so `end.Sub(start).Minutes()` becomes subtraction.
* Go maps are modelled as association lists in insertion order; map
  iteration order is irrelevant to the facts proved here because the
  accumulations involved are order-independent or the inputs concrete.
* A Go runtime panic (a failed single-value type assertion such as
  `v.(map[string]interface{})`) is an explicit `goPanic`/`panicked`
  outcome, distinct from an error return.
-/

namespace EC2PricingModel

/-- Go float64 division, restricted to the finite cases: dividing by zero
yields `none`, standing for the non-finite `NaN` (when the numerator is
also zero) or `±Inf` that Go produces there. -/
def fdiv (a b : ℚ) : Option ℚ := if b = 0 then none else some (a / b)

/-- Addition on possibly-NaN floats: a NaN operand makes the sum NaN. -/
def oadd : Option ℚ → Option ℚ → Option ℚ
  | some a, some b => some (a + b)
  | _, _ => none

/-- Division of a possibly-NaN float by a (finite) float. -/
def ofdiv : Option ℚ → ℚ → Option ℚ
  | some a, b => fdiv a b
  | none, _ => none

/-- One spot-price-history observation, mirroring the Go struct
`spotPricingEntry { Timestamp time.Time; SpotPrice float64 }`. -/
structure spotPricingEntry where
  Timestamp : ℚ
  SpotPrice : ℚ
deriving DecidableEq

instance : Inhabited spotPricingEntry := ⟨⟨0, 0⟩⟩

/-- Insert an entry into a list sorted by descending timestamp, keeping it
sorted; used to model Go's `sort.Slice` with the comparator
`entries[i].Timestamp.After(entries[j].Timestamp)`. -/
def insertDesc (e : spotPricingEntry) : List spotPricingEntry → List spotPricingEntry
  | [] => [e]
  | a :: as => if a.Timestamp > e.Timestamp then a :: insertDesc e as else e :: a :: as

/-- Sort observations by timestamp in descending order (most recent first),
modelling the `sort.Slice` call in `calculateSpotAggregate`. -/
def sortDesc : List spotPricingEntry → List spotPricingEntry
  | [] => []
  | e :: rest => insertDesc e (sortDesc rest)

/-- Embedding of `calculateSpotAggregate` (ec2pricing.go lines 144-163).
The Go index expression `entries[int(math.Max(float64(i-1), 0))]` is the
predecessor index clamped at zero, which is exactly truncated `Nat`
subtraction `i - 1`.  The final statement `priceSum / totalDuration` is a
float division that is degenerate when all (or the only) timestamps
coincide; `fdiv` returns `none` (NaN) there, as the Go code computes `0/0`. -/
def calculateSpotAggregate (spotPriceEntries : List spotPricingEntry) : Option ℚ :=
  if spotPriceEntries.length = 0 then some 0
  else
    let sorted := sortDesc spotPriceEntries
    let endTime := (sorted.getD 0 default).Timestamp
    let startTime := (sorted.getD (sorted.length - 1) default).Timestamp
    let totalDuration := endTime - startTime
    let priceSum := (List.range sorted.length).foldl
      (fun acc i =>
        acc + ((sorted.getD (i - 1) default).Timestamp - (sorted.getD i default).Timestamp)
          * (sorted.getD i default).SpotPrice) 0
    fdiv priceSum totalDuration

/-- Whether the character list `p` occurs at the head of `s`. -/
def leadsWith : List Char → List Char → Bool
  | [], _ => true
  | _ :: _, [] => false
  | a :: as, b :: bs => a == b && leadsWith as bs

/-- Whether `p` occurs anywhere inside `s`. -/
def charsContain (s p : List Char) : Bool :=
  match s with
  | [] => p.isEmpty
  | _ :: t => leadsWith p s || charsContain t p

/-- Embedding of Go `strings.Contains(s, sub)`: substring containment. -/
def containsSubstr (s sub : String) : Bool :=
  charsContain s.data sub.data

/-- Error values surfaced by the embedded operations: `apiError` is a
network/transport failure passed through unchanged, `parseErrors` is the
`multierr` aggregation of the per-record parse failures (in order). -/
inductive GoError where
  | apiError (msg : String)
  | parseErrors (errs : List String)
deriving DecidableEq

/-- Embedding of the aggregation section of `GetSpotInstanceTypeNDayAvgCost`
(ec2pricing.go lines 129-141), which runs identically on the cache-hit and
the freshly-fetched `zoneToPriceEntries` map.  A zone is skipped exactly when
the filter is non-empty and `strings.Contains(strings.Join(filter, " "), zone)`
is false; matching zones contribute their `calculateSpotAggregate` value to
the running sum and are counted.  The function returns
`aggregateZonePriceSum / float64(numOfZones)` together with the (always nil
on this path) error. -/
def getSpotNDayAvgCostFromEntries
    (zoneToPriceEntries : List (String × List spotPricingEntry))
    (availabilityZones : List String) : Option ℚ × Option GoError :=
  let r := zoneToPriceEntries.foldl
    (fun (acc : Option ℚ × Nat) z =>
      if availabilityZones.length != 0
          && !(containsSubstr (String.intercalate " " availabilityZones) z.1)
      then acc
      else (oadd acc.1 (calculateSpotAggregate z.2), acc.2 + 1))
    ((some 0 : Option ℚ), (0 : Nat))
  (ofdiv r.1 (r.2 : ℚ), none)

/-- Dynamic JSON-like values, modelling the `interface{}` payloads inside an
`aws.JSONValue` (`map[string]interface{}`) pricing record: strings, numbers,
nested objects and JSON null. -/
inductive JVal where
  | str (s : String)
  | num (q : ℚ)
  | obj (fields : List (String × JVal))
  | nullv

/-- Fields of one pricing record (`aws.JSONValue`). -/
def PricingDoc := List (String × JVal)

/-- Lookup in a Go `map[string]interface{}`: `none` models the comma-ok form
reporting the key absent (the single-value form then yields the nil
interface, whose type assertions panic). -/
def lookupJ : List (String × JVal) → String → Option JVal
  | [], _ => none
  | (k0, v) :: rest, k => if k0 == k then some v else lookupJ rest k

/-- Accumulate the value of a list of decimal digit characters; `none` if a
non-digit is met. -/
def digitsValAux : List Char → Nat → Option Nat
  | [], acc => some acc
  | c :: cs, acc =>
    if c.isDigit then digitsValAux cs (acc * 10 + (c.toNat - 48)) else none

/-- Model of Go `strconv.ParseFloat(s, 64)` (standard-library collaborator,
not part of this repository), restricted to plain decimal literals with an
optional sign and fractional part; any other string fails.  The parsed value
is kept exact as a rational. -/
def parseFloatQ (s : String) : Option ℚ :=
  let signBody : Bool × List Char :=
    match s.data with
    | '-' :: rest => (true, rest)
    | '+' :: rest => (false, rest)
    | cs => (false, cs)
  let neg := signBody.1
  let body := signBody.2
  let intPart := body.takeWhile (fun c => c != '.')
  match body.dropWhile (fun c => c != '.') with
  | [] =>
    if intPart.isEmpty then none
    else (digitsValAux intPart 0).map (fun n => if neg then -(n : ℚ) else (n : ℚ))
  | _ :: fracPart =>
    if intPart.isEmpty && fracPart.isEmpty then none
    else if fracPart.any (fun c => c == '.') then none
    else
      match digitsValAux intPart 0, digitsValAux fracPart 0 with
      | some ip, some fp =>
        let q : ℚ := (ip : ℚ) + (fp : ℚ) / ((10 : ℚ) ^ fracPart.length)
        some (if neg then -q else q)
      | _, _ => none

/-- Outcome of `parseOndemandUnitPrice`: a successful
`(instanceTypeName, price, nil)` triple, an error return carrying the partial
instance-type name recovered so far, or a Go runtime panic from a failed
single-value type assertion. -/
inductive ParseResult where
  | ok (instanceTypeName : String) (price : ℚ)
  | err (instanceTypeName : String) (msg : String)
  | goPanic (msg : String)
deriving DecidableEq

/-- Boolean test for the panic outcome. -/
def ParseResult.isGoPanic : ParseResult → Bool
  | .goPanic _ => true
  | _ => false

/-- Embedding of the two nested `for ... range` loops of
`parseOndemandUnitPrice` (ec2pricing.go lines 331-353), iterating over the
values of the `OnDemand` terms object.  Every path of the inner loop body
returns, so only the first price dimension of a non-empty `priceDimensions`
object is examined; an empty one falls through to the next on-demand term,
and exhausting all terms reaches the trailing
`"Unable to parse pricing doc"` error. -/
def parseDimsLoop (instanceTypeName : String) : List JVal → ParseResult
  | [] => ParseResult.err instanceTypeName "Unable to parse pricing doc"
  | priceDimensions :: rest =>
    match priceDimensions with
    | JVal.obj pdFields =>
      match lookupJ pdFields "priceDimensions" with
      | none =>
        ParseResult.err instanceTypeName "Unable to find on-demand pricing dimensions"
      | some dim =>
        match dim with
        | JVal.obj dimFields =>
          match dimFields.map Prod.snd with
          | [] => parseDimsLoop instanceTypeName rest
          | dimension :: _ =>
            match dimension with
            | JVal.obj dims =>
              match lookupJ dims "pricePerUnit" with
              | none =>
                ParseResult.err instanceTypeName
                  "Unable to find on-demand price per unit in pricing dimensions"
              | some pricePerUnit =>
                match pricePerUnit with
                | JVal.obj ppuFields =>
                  match lookupJ ppuFields "USD" with
                  | none =>
                    ParseResult.err instanceTypeName
                      "Unable to find on-demand price per unit in USD"
                  | some usd =>
                    match usd with
                    | JVal.str s =>
                      match parseFloatQ s with
                      | none =>
                        ParseResult.err instanceTypeName
                          "Could not convert price per unit in USD to a float64"
                      | some q => ParseResult.ok instanceTypeName q
                    | _ => ParseResult.goPanic "interface conversion"
                | _ => ParseResult.goPanic "interface conversion"
            | _ => ParseResult.goPanic "interface conversion"
        | _ => ParseResult.goPanic "interface conversion"
    | _ => ParseResult.goPanic "interface conversion"

/-- Continuation of `parseOndemandUnitPrice` from the `terms` lookup on
(ec2pricing.go lines 323-330), once the instance-type name is in hand:
`terms` is read with the comma-ok form (absence is an error), but
`terms.(map[string]interface{})` and
`ondemandTerms.(map[string]interface{})` are single-value type assertions
that panic on a non-object value. -/
def parseTermsPart (priceList : List (String × JVal)) (instanceTypeName : String) :
    ParseResult :=
  match lookupJ priceList "terms" with
  | none => ParseResult.err instanceTypeName "Unable to find pricing terms"
  | some terms =>
    match terms with
    | JVal.obj termsFields =>
      match lookupJ termsFields "OnDemand" with
      | none => ParseResult.err instanceTypeName "Unable to find on-demand pricing terms"
      | some ondemandTerms =>
        match ondemandTerms with
        | JVal.obj otFields => parseDimsLoop instanceTypeName (otFields.map Prod.snd)
        | _ => ParseResult.goPanic "interface conversion"
    | _ => ParseResult.goPanic "interface conversion"

/-- Embedding of `parseOndemandUnitPrice` (ec2pricing.go lines 311-355).
`priceList["product"].(map[string]interface{})` is a single-value type
assertion: when the `product` key is absent the map index yields the nil
interface and the assertion panics, and likewise when `product` or
`attributes` is not an object.  The `attributes` and `instanceType` lookups
use the comma-ok forms and report errors, carrying whatever partial
instance-type name was already recovered. -/
def parseOndemandUnitPrice (priceList : List (String × JVal)) : ParseResult :=
  match lookupJ priceList "product" with
  | some (JVal.obj productFields) =>
    match lookupJ productFields "attributes" with
    | none => ParseResult.err "" "Unable to find product attributes"
    | some attributes =>
      match attributes with
      | JVal.obj attrFields =>
        match lookupJ attrFields "instanceType" with
        | some (JVal.str instanceTypeName) => parseTermsPart priceList instanceTypeName
        | _ =>
          ParseResult.err "" "Unable to find instance type name from product attributes"
      | _ => ParseResult.goPanic "interface conversion"
  | _ => ParseResult.goPanic "interface conversion"

/-- The mutable fields of the Go `EC2Pricing` struct: the flat on-demand
cache, the nested spot cache (instance type → zone → entries, association
lists in insertion order), and the two freshness timestamps (`none` models
the nil pointer of a never-hydrated cache). -/
structure EC2PricingState where
  onDemandCache : List (String × ℚ)
  spotCache : List (String × List (String × List spotPricingEntry))
  lastOnDemandCacheUTC : Option ℚ
  lastSpotCacheUTC : Option ℚ
deriving DecidableEq

/-- Result of the paged fetch performed by a network collaborator
(`GetProductsPages` / `DescribeSpotPriceHistoryPages`): either a transport
error, or the list of pages, each a list of records, that the callback is
fed in order. -/
inductive FetchResult (α : Type) where
  | transportError (msg : String)
  | ok (pages : List (List α))

/-- Lookup in a Go map modelled as an association list. -/
def lookupAssoc {α : Type} : List (String × α) → String → Option α
  | [], _ => none
  | (k0, v) :: rest, k => if k0 == k then some v else lookupAssoc rest k

/-- Go map assignment `m[k] = v`: replace the existing binding or add one. -/
def insertAssoc : List (String × ℚ) → String → ℚ → List (String × ℚ)
  | [], k, v => [(k, v)]
  | (k0, v0) :: rest, k, v =>
    if k0 == k then (k, v) :: rest else (k0, v0) :: insertAssoc rest k v

/-- Go `cache[zone] = append(cache[zone], e)` on a zone-indexed map. -/
def appendZoneEntry : List (String × List spotPricingEntry) → String → spotPricingEntry →
    List (String × List spotPricingEntry)
  | [], z, e => [(z, [e])]
  | (z0, es) :: rest, z, e =>
    if z0 == z then (z0, es ++ [e]) :: rest else (z0, es) :: appendZoneEntry rest z e

/-- The nested update of `HydrateSpotCache`: ensure the instance-type key
exists, then append the entry to its zone list. -/
def appendSpotEntry :
    List (String × List (String × List spotPricingEntry)) → String → String →
      spotPricingEntry → List (String × List (String × List spotPricingEntry))
  | [], it, z, e => [(it, [(z, [e])])]
  | (it0, zc) :: rest, it, z, e =>
    if it0 == it then (it0, appendZoneEntry zc z e) :: rest
    else (it0, zc) :: appendSpotEntry rest it z e

/-- Outcome of a call that may end in a Go runtime panic instead of
returning. -/
inductive CallResult (α : Type) where
  | panicked (msg : String)
  | returned (v : α)
deriving DecidableEq

/-- The record-processing pass of `HydrateOndemandCache` (ec2pricing.go lines
272-282): every record of every page is parsed; a parse failure appends the
error to the `multierr` accumulation and skips the record, a success stores
the price under the instance-type name, and a parser panic propagates. -/
def hydrateOndemandPassAux (cache : List (String × ℚ)) (errs : List String) :
    List PricingDoc → CallResult (List (String × ℚ) × List String)
  | [] => CallResult.returned (cache, errs)
  | doc :: rest =>
    match parseOndemandUnitPrice doc with
    | ParseResult.ok n q => hydrateOndemandPassAux (insertAssoc cache n q) errs rest
    | ParseResult.err _ m => hydrateOndemandPassAux cache (errs ++ [m]) rest
    | ParseResult.goPanic m => CallResult.panicked m

/-- Embedding of `HydrateOndemandCache` (ec2pricing.go lines 256-290).  A
transport error returns immediately, leaving the whole state untouched;
otherwise the freshly built cache and a new timestamp are committed and the
aggregated parse errors (nil when there were none) are returned. -/
def hydrateOndemandCache (p : EC2PricingState) (fetch : FetchResult PricingDoc)
    (cTime : ℚ) : CallResult (EC2PricingState × Option GoError) :=
  match fetch with
  | FetchResult.transportError m =>
    CallResult.returned (p, some (GoError.apiError m))
  | FetchResult.ok pages =>
    match hydrateOndemandPassAux [] [] pages.flatten with
    | CallResult.panicked m => CallResult.panicked m
    | CallResult.returned (newOnDemandCache, errs) =>
      CallResult.returned
        ({ p with onDemandCache := newOnDemandCache, lastOnDemandCacheUTC := some cTime },
          if errs.isEmpty then none else some (GoError.parseErrors errs))

/-- One record of the spot price history fetch, mirroring the fields of
`ec2.SpotPrice` that `HydrateSpotCache` reads: the price is still the raw
string to be run through `strconv.ParseFloat`. -/
structure SpotPriceRecord where
  InstanceType : String
  AvailabilityZone : String
  SpotPrice : String
  Timestamp : ℚ
deriving DecidableEq

/-- The record-processing pass of `HydrateSpotCache` (ec2pricing.go lines
225-243): an unparsable price string appends its error and skips the record
(the raw string stands in for the `strconv` error message), a parsed one is
appended under its instance type and zone. -/
def hydrateSpotPassAux (cache : List (String × List (String × List spotPricingEntry)))
    (errs : List String) :
    List SpotPriceRecord → List (String × List (String × List spotPricingEntry)) × List String
  | [] => (cache, errs)
  | r :: rest =>
    match parseFloatQ r.SpotPrice with
    | none => hydrateSpotPassAux cache (errs ++ [r.SpotPrice]) rest
    | some q =>
      hydrateSpotPassAux
        (appendSpotEntry cache r.InstanceType r.AvailabilityZone ⟨r.Timestamp, q⟩) errs rest

/-- Embedding of `HydrateSpotCache` (ec2pricing.go lines 214-251): a
transport error returns immediately with the state untouched; otherwise the
new cache and timestamp are committed and the aggregated parse errors (nil
when none) are returned. -/
def hydrateSpotCache (p : EC2PricingState) (fetch : FetchResult SpotPriceRecord)
    (cTime : ℚ) : EC2PricingState × Option GoError :=
  match fetch with
  | FetchResult.transportError m => (p, some (GoError.apiError m))
  | FetchResult.ok pages =>
    let r := hydrateSpotPassAux [] [] pages.flatten
    ({ p with spotCache := r.1, lastSpotCacheUTC := some cTime },
      if r.2.isEmpty then none else some (GoError.parseErrors r.2))

/-- One page of the `GetProductsPages` callback inside
`GetOndemandInstanceTypeCost` (ec2pricing.go lines 189-200): records are
parsed in order, each successful parse overwriting the running price; the
first failing record makes the parser's `-1` price stick, records the error
and ends the page early with "continue paging" (`some` error).  A page whose
records all parse reports "stop paging" (`none`). -/
def processPage (price : ℚ) : List PricingDoc → CallResult (ℚ × Option String)
  | [] => CallResult.returned (price, none)
  | doc :: rest =>
    match parseOndemandUnitPrice doc with
    | ParseResult.ok _ q => processPage q rest
    | ParseResult.err _ m => CallResult.returned (-1, some m)
    | ParseResult.goPanic m => CallResult.panicked m

/-- The paging loop of `GetOndemandInstanceTypeCost`: pagination continues
after a page with a parse error (accumulating it) and stops after the first
cleanly parsed page. -/
def processPages (price : ℚ) (errs : List String) :
    List (List PricingDoc) → CallResult (ℚ × List String)
  | [] => CallResult.returned (price, errs)
  | page :: rest =>
    match processPage price page with
    | CallResult.panicked m => CallResult.panicked m
    | CallResult.returned (price1, none) => CallResult.returned (price1, errs)
    | CallResult.returned (price1, some e) => processPages price1 (errs ++ [e]) rest

/-- Embedding of `GetOndemandInstanceTypeCost` (ec2pricing.go lines 166-208).
A cache hit returns the cached price at once.  On a miss the paged fetch is
processed from the initial sentinel price `-1`; a transport error yields
`(-1, errAPI)`, accumulated parse errors yield `(-1, processingErr)`, and
otherwise the last parsed price is returned with a nil error.  The method
never writes any receiver field, so the state component of the result is the
input state unchanged. -/
def getOndemandInstanceTypeCost (p : EC2PricingState) (instanceType : String)
    (fetch : FetchResult PricingDoc) :
    CallResult (EC2PricingState × ℚ × Option GoError) :=
  match lookupAssoc p.onDemandCache instanceType with
  | some price => CallResult.returned (p, price, none)
  | none =>
    match fetch with
    | FetchResult.transportError m =>
      CallResult.returned (p, -1, some (GoError.apiError m))
    | FetchResult.ok pages =>
      match processPages (-1) [] pages with
      | CallResult.panicked m => CallResult.panicked m
      | CallResult.returned (price, errs) =>
        if errs.isEmpty then CallResult.returned (p, price, none)
        else CallResult.returned (p, -1, some (GoError.parseErrors errs))

/-- Following the spec's wording for the per-zone algorithm: the weight of
the observation at index `i` of the descending-sorted list is `0` minutes
for the most recent observation (index 0) and otherwise the number of
minutes between it and the next most recent observation (index `i - 1`). -/
def specWeight (s : List spotPricingEntry) (i : Nat) : ℚ :=
  if i = 0 then 0
  else (s.getD (i - 1) default).Timestamp - (s.getD i default).Timestamp

/-- Following the spec's wording: the weighted sum
`Σ (weight_minutes × price)` over all observations of the sorted list. -/
def specWeightedSum (s : List spotPricingEntry) : ℚ :=
  (List.range s.length).foldl
    (fun acc i => acc + specWeight s i * (s.getD i default).SpotPrice) 0

/-- Following the spec's wording: the span in minutes from the oldest to the
newest observation of the descending-sorted list. -/
def specSpan (s : List spotPricingEntry) : ℚ :=
  (s.getD 0 default).Timestamp - (s.getD (s.length - 1) default).Timestamp

/-- Following the spec's wording for hydration: the successfully parsed
subset of the fetched records, as (instance type, price) pairs in order. -/
def ondemandParsedSubset (docs : List PricingDoc) : List (String × ℚ) :=
  docs.filterMap (fun d =>
    match parseOndemandUnitPrice d with
    | ParseResult.ok n q => some (n, q)
    | _ => none)

/-- Following the spec's wording: the per-record parse-error messages of the
fetched records, in order. -/
def ondemandParseFailures (docs : List PricingDoc) : List String :=
  docs.filterMap (fun d =>
    match parseOndemandUnitPrice d with
    | ParseResult.err _ m => some m
    | _ => none)

/-- The flat on-demand cache built from a list of parsed records. -/
def buildOndemandCache (l : List (String × ℚ)) : List (String × ℚ) :=
  l.foldl (fun c nq => insertAssoc c nq.1 nq.2) []

/-- Following the spec's wording: the successfully parsed subset of the spot
history records, with their prices parsed. -/
def spotParsedSubset (recs : List SpotPriceRecord) : List (SpotPriceRecord × ℚ) :=
  recs.filterMap (fun r => (parseFloatQ r.SpotPrice).map (fun q => (r, q)))

/-- Following the spec's wording: the price strings of the spot records that
failed to parse, in order (standing for their error messages). -/
def spotParseFailures (recs : List SpotPriceRecord) : List String :=
  recs.filterMap (fun r =>
    match parseFloatQ r.SpotPrice with
    | none => some r.SpotPrice
    | some _ => none)

/-- The nested spot cache built from a list of parsed records. -/
def buildSpotCache (l : List (SpotPriceRecord × ℚ)) :
    List (String × List (String × List spotPricingEntry)) :=
  l.foldl (fun c rq =>
    appendSpotEntry c rq.1.InstanceType rq.1.AvailabilityZone ⟨rq.1.Timestamp, rq.2⟩) []

lemma hydrateOndemandPassAux_eq (docs : List PricingDoc) :
    ∀ cache errs,
      (∀ d ∈ docs, (parseOndemandUnitPrice d).isGoPanic = false) →
      hydrateOndemandPassAux cache errs docs =
        CallResult.returned
          ((ondemandParsedSubset docs).foldl (fun c nq => insertAssoc c nq.1 nq.2) cache,
            errs ++ ondemandParseFailures docs) := by
  induction docs with
  | nil => intro cache errs _; simp [hydrateOndemandPassAux, ondemandParsedSubset,
      ondemandParseFailures]
  | cons doc rest ih =>
    intro cache errs h
    have hd := h doc (List.mem_cons_self doc rest)
    have hrest : ∀ d ∈ rest, (parseOndemandUnitPrice d).isGoPanic = false :=
      fun d hm => h d (List.mem_cons_of_mem doc hm)
    cases hp : parseOndemandUnitPrice doc with
    | ok n q =>
      simp only [hydrateOndemandPassAux, hp]
      rw [ih (insertAssoc cache n q) errs hrest]
      simp [ondemandParsedSubset, ondemandParseFailures, List.filterMap_cons, hp]
    | err n m =>
      simp only [hydrateOndemandPassAux, hp]
      rw [ih cache (errs ++ [m]) hrest]
      simp [ondemandParsedSubset, ondemandParseFailures, List.filterMap_cons, hp]
    | goPanic m => simp [ParseResult.isGoPanic, hp] at hd

lemma hydrateSpotPassAux_eq (recs : List SpotPriceRecord) :
    ∀ cache errs,
      hydrateSpotPassAux cache errs recs =
        ((spotParsedSubset recs).foldl
            (fun c rq =>
              appendSpotEntry c rq.1.InstanceType rq.1.AvailabilityZone
                ⟨rq.1.Timestamp, rq.2⟩) cache,
          errs ++ spotParseFailures recs) := by
  induction recs with
  | nil => intro cache errs; simp [hydrateSpotPassAux, spotParsedSubset, spotParseFailures]
  | cons r rest ih =>
    intro cache errs
    cases hp : parseFloatQ r.SpotPrice with
    | none =>
      simp only [hydrateSpotPassAux, hp]
      rw [ih]
      simp [spotParsedSubset, spotParseFailures, hp]
    | some q =>
      simp only [hydrateSpotPassAux, hp]
      rw [ih]
      simp [spotParsedSubset, spotParseFailures, hp]

lemma oadd_some (a b : ℚ) : oadd (some a) (some b) = some (a + b) := rfl

/-- The zone-selection test of `GetSpotInstanceTypeNDayAvgCost` (ec2pricing.go
lines 132-136), as a predicate: a zone is included in the aggregation when
the filter is empty or the space-joined filter contains the zone name as a
substring (the negation of the loop's `continue` condition). -/
def zoneIncluded (availabilityZones : List String) (zone : String) : Bool :=
  availabilityZones.length == 0
    || containsSubstr (String.intercalate " " availabilityZones) zone

lemma zoneIncluded_not_skip (azs : List String) (zone : String) :
    (azs.length != 0 && !(containsSubstr (String.intercalate " " azs) zone))
      = !(zoneIncluded azs zone) := by
  simp [zoneIncluded, Bool.not_or, bne]

lemma spotAvgFold_filter_matched (azs : List String)
    (data : List (String × List spotPricingEntry))
    (a : String × List spotPricingEntry → ℚ)
    (hall : ∀ z ∈ data, zoneIncluded azs z.1 = true →
      calculateSpotAggregate z.2 = some (a z)) :
    ∀ (s : ℚ) (k : Nat),
      data.foldl
        (fun (acc : Option ℚ × Nat) z =>
          if azs.length != 0 && !(containsSubstr (String.intercalate " " azs) z.1)
          then acc
          else (oadd acc.1 (calculateSpotAggregate z.2), acc.2 + 1))
        ((some s : Option ℚ), k) =
      (some (s + ((data.filter (fun z => zoneIncluded azs z.1)).map a).sum),
        k + (data.filter (fun z => zoneIncluded azs z.1)).length) := by
  induction data with
  | nil => intro s k; simp
  | cons z rest ih =>
    intro s k
    have hrest : ∀ w ∈ rest, zoneIncluded azs w.1 = true →
        calculateSpotAggregate w.2 = some (a w) :=
      fun w hm => hall w (List.mem_cons_of_mem z hm)
    simp only [List.foldl_cons]
    rw [zoneIncluded_not_skip azs z.1]
    cases hin : zoneIncluded azs z.1 with
    | false =>
      simp only [hin, Bool.not_false, if_true]
      rw [ih hrest s k]
      simp [List.filter_cons, hin]
    | true =>
      have hz := hall z (List.mem_cons_self z rest) hin
      simp only [hin, Bool.not_true, Bool.false_eq_true, if_false, hz, oadd_some]
      rw [ih hrest (s + a z) (k + 1)]
      simp only [List.filter_cons, hin, if_true, List.map_cons, List.sum_cons,
        List.length_cons]
      refine congrArg₂ Prod.mk (congrArg some (by ring)) (by omega)

/-- Claim C1.  The claim states that a zone contributes to the cross-zone
average iff its name is an exact member of the filter set.  The code instead
tests `strings.Contains(strings.Join(filter, " "), zone)`: with filter
`["us-east-1ab"]`, zone `"us-east-1a"` is not a member of the filter but IS a
substring of it, so it wrongly contributes.  Here zone "us-east-1a" averages
$4 and zone "us-east-1ab" averages $8; exact membership would answer $8,
while the code answers the two-zone mean $6. -/
theorem spot_zone_filter_matches_by_substring_not_membership :
    getSpotNDayAvgCostFromEntries
        [("us-east-1a", [⟨60, 4⟩, ⟨0, 4⟩]), ("us-east-1ab", [⟨60, 8⟩, ⟨0, 8⟩])]
        ["us-east-1ab"] = (some 6, none)
    ∧ "us-east-1a" ∉ (["us-east-1ab"] : List String) := by
  refine ⟨?_, by decide⟩
  norm_num +decide [getSpotNDayAvgCostFromEntries, calculateSpotAggregate, sortDesc,
    insertDesc, fdiv, ofdiv, oadd, containsSubstr, charsContain, leadsWith,
    List.range_succ, String.intercalate]

/-- Claim C2.  The claim states that a zone with exactly one observation
averages to that observation's price, the degenerate zero-duration division
being special-cased.  The code has no such special case: with the single
observation `{t0, $5}` it computes `priceSum = 0`, `totalDuration = 0` and
returns the float `0/0`, i.e. NaN (`none` in this model), not `$5`. -/
theorem single_observation_zone_average_is_nan :
    calculateSpotAggregate [⟨0, 5⟩] = none := by
  norm_num [calculateSpotAggregate, sortDesc, insertDesc, fdiv]

/-- Claim C3.  The claim states that a filter selecting zero zones yields a
`NoMatchingZonesError` rather than a numeric value.  The code has no such
error: with data only for zone "us-east-1a" and filter `["eu-west-1b"]` no
zone matches, `numOfZones = 0`, and the function evaluates `0/0` (NaN,
`none` here) and returns it with a nil error. -/
theorem no_matching_zones_returns_nan_with_nil_error :
    getSpotNDayAvgCostFromEntries [("us-east-1a", [⟨60, 4⟩, ⟨0, 4⟩])] ["eu-west-1b"]
      = (none, none) := by
  norm_num +decide [getSpotNDayAvgCostFromEntries, calculateSpotAggregate, sortDesc,
    insertDesc, fdiv, ofdiv, oadd, containsSubstr, charsContain, leadsWith,
    List.range_succ, String.intercalate]

/-- Claim C4.  For a zone with at least two observations whose
oldest-to-newest span is non-zero, the per-zone average equals the weighted
price sum divided by the span, where (as the spec words it) the weight of
the observation at index `i` of the descending-sorted list is the distance
in minutes to the next most recent observation, the most recent observation
(index 0) weighing 0 minutes. -/
theorem spot_aggregate_is_weighted_sum_over_span (l : List spotPricingEntry)
    (h2 : 2 ≤ l.length) (hspan : specSpan (sortDesc l) ≠ 0) :
    calculateSpotAggregate l
      = some (specWeightedSum (sortDesc l) / specSpan (sortDesc l))
    ∧ specWeight (sortDesc l) 0 = 0 := by
  refine ⟨?_, by simp [specWeight]⟩
  have hne : ¬ l.length = 0 := by omega
  have hfold : (List.range (sortDesc l).length).foldl
      (fun acc i =>
        acc + (((sortDesc l).getD (i - 1) default).Timestamp
            - ((sortDesc l).getD i default).Timestamp)
          * ((sortDesc l).getD i default).SpotPrice) 0
      = specWeightedSum (sortDesc l) := by
    unfold specWeightedSum
    refine List.foldl_ext _ _ 0 ?_
    intro acc i _
    cases i with
    | zero => simp [specWeight]
    | succ k => simp [specWeight]
  simp only [calculateSpotAggregate, if_neg hne]
  rw [hfold]
  show fdiv (specWeightedSum (sortDesc l)) (specSpan (sortDesc l)) = _
  unfold fdiv
  rw [if_neg hspan]

/-- Witness for C4 at the spec's own example: observations `{now = 60, $10}`
and `{now - 60 = 0, $6}` satisfy the hypotheses, and the average is `$6`. -/
theorem spot_aggregate_is_weighted_sum_over_span_witness :
    calculateSpotAggregate [⟨60, 10⟩, ⟨0, 6⟩]
      = some (specWeightedSum (sortDesc [⟨60, 10⟩, ⟨0, 6⟩])
          / specSpan (sortDesc [⟨60, 10⟩, ⟨0, 6⟩]))
    ∧ calculateSpotAggregate [⟨60, 10⟩, ⟨0, 6⟩] = some 6 := by
  refine ⟨(spot_aggregate_is_weighted_sum_over_span [⟨60, 10⟩, ⟨0, 6⟩]
    (by norm_num) ?_).1, ?_⟩
  · norm_num [specSpan, sortDesc, insertDesc]
  · norm_num [calculateSpotAggregate, sortDesc, insertDesc, fdiv, List.range_succ]

/-- Counterexample for claim C5.  The claim states that for EVERY
spot-average query the returned figure is the unweighted mean of the
per-zone averages over the zones matching the filter, where matching is
exact membership (the spec sentence it cites).  With zones "us-east-1a"
(average $4) and "us-east-1ab" (average $8) and filter `["us-east-1ab"]`,
exactly one zone is an exact member of the filter and its average is $8, so
the claimed mean is $8 — but the code's substring test also admits
"us-east-1a" and returns $6. -/
theorem cross_zone_mean_ignores_exact_membership :
    getSpotNDayAvgCostFromEntries
        [("us-east-1a", [⟨60, 4⟩, ⟨0, 4⟩]), ("us-east-1ab", [⟨60, 8⟩, ⟨0, 8⟩])]
        ["us-east-1ab"]
      ≠ (some 8, none)
    ∧ ([("us-east-1a", [⟨60, 4⟩, ⟨0, 4⟩]), ("us-east-1ab", [⟨60, 8⟩, ⟨0, 8⟩])]
          : List (String × List spotPricingEntry)).filter
        (fun z => (["us-east-1ab"] : List String).contains z.1)
        = [("us-east-1ab", [⟨60, 8⟩, ⟨0, 8⟩])]
    ∧ calculateSpotAggregate [⟨60, 8⟩, ⟨0, 8⟩] = some 8
    ∧ getSpotNDayAvgCostFromEntries
        [("us-east-1a", [⟨60, 4⟩, ⟨0, 4⟩]), ("us-east-1ab", [⟨60, 8⟩, ⟨0, 8⟩])]
        ["us-east-1ab"] = (some 6, none) := by
  refine ⟨?_, by decide, ?_, ?_⟩
  · norm_num +decide [getSpotNDayAvgCostFromEntries, calculateSpotAggregate, sortDesc,
      insertDesc, fdiv, ofdiv, oadd, containsSubstr, charsContain, leadsWith,
      List.range_succ, String.intercalate]
  · norm_num [calculateSpotAggregate, sortDesc, insertDesc, fdiv, List.range_succ]
  · norm_num +decide [getSpotNDayAvgCostFromEntries, calculateSpotAggregate, sortDesc,
      insertDesc, fdiv, ofdiv, oadd, containsSubstr, charsContain, leadsWith,
      List.range_succ, String.intercalate]

/-- Claim C5 as amended.  For every spot-average query, the returned figure
is the unweighted arithmetic mean of the per-zone time-weighted averages
(given by `a`, assumed finite for each selected zone) over the zones
selected by the code's filter test `zoneIncluded` — inclusion when the
filter is empty or the space-joined filter contains the zone name as a
substring — with a nil error, provided at least one zone is selected; and
an empty filter selects every zone present in the data. -/
theorem cross_zone_figure_is_mean_over_code_matched_zones
    (data : List (String × List spotPricingEntry)) (azs : List String)
    (a : String × List spotPricingEntry → ℚ)
    (hall : ∀ z ∈ data, zoneIncluded azs z.1 = true →
      calculateSpotAggregate z.2 = some (a z))
    (hne : data.filter (fun z => zoneIncluded azs z.1) ≠ []) :
    getSpotNDayAvgCostFromEntries data azs
      = (some (((data.filter (fun z => zoneIncluded azs z.1)).map a).sum
            / ((data.filter (fun z => zoneIncluded azs z.1)).length : ℚ)), none)
    ∧ data.filter (fun z => zoneIncluded ([] : List String) z.1) = data := by
  constructor
  · unfold getSpotNDayAvgCostFromEntries
    rw [spotAvgFold_filter_matched azs data a hall 0 0]
    have hpos : 0 < (data.filter (fun z => zoneIncluded azs z.1)).length :=
      List.length_pos.mpr hne
    have hlen : ((data.filter (fun z => zoneIncluded azs z.1)).length : ℚ) ≠ 0 :=
      Nat.cast_ne_zero.mpr (by omega)
    simp only [ofdiv, fdiv, if_neg hlen, zero_add]
  · refine List.filter_eq_self.mpr ?_
    intro z _
    simp [zoneIncluded]

/-- Witness for the amended C5, at the spec's own empty-filter example
(zones "a" and "b" with averages $4 and $8 give the mean $6) and at a
non-empty filter, where both zones pass the code's substring test and the
mean is again $6. -/
theorem cross_zone_figure_mean_witness :
    ([("a", [⟨60, 4⟩, ⟨0, 4⟩]), ("b", [⟨60, 8⟩, ⟨0, 8⟩])]
        : List (String × List spotPricingEntry)).filter
      (fun z => zoneIncluded ([] : List String) z.1) ≠ []
    ∧ getSpotNDayAvgCostFromEntries
        [("a", [⟨60, 4⟩, ⟨0, 4⟩]), ("b", [⟨60, 8⟩, ⟨0, 8⟩])] []
      = (some 6, none)
    ∧ getSpotNDayAvgCostFromEntries
        [("us-east-1a", [⟨60, 4⟩, ⟨0, 4⟩]), ("us-east-1ab", [⟨60, 8⟩, ⟨0, 8⟩])]
        ["us-east-1ab"]
      = (some 6, none) := by
  refine ⟨by simp [zoneIncluded], ?_, ?_⟩
  · have h := cross_zone_figure_is_mean_over_code_matched_zones
      [("a", [⟨60, 4⟩, ⟨0, 4⟩]), ("b", [⟨60, 8⟩, ⟨0, 8⟩])] []
      (fun z => if z.1 = "a" then (4 : ℚ) else 8) ?_ (by simp [zoneIncluded])
    · rw [h.1]
      norm_num +decide [zoneIncluded]
    · intro z hz _
      simp only [List.mem_cons, List.not_mem_nil, or_false] at hz
      rcases hz with rfl | rfl
      · norm_num +decide [calculateSpotAggregate, sortDesc, insertDesc, fdiv,
          List.range_succ]
      · norm_num +decide [calculateSpotAggregate, sortDesc, insertDesc, fdiv,
          List.range_succ]
  · have h := cross_zone_figure_is_mean_over_code_matched_zones
      [("us-east-1a", [⟨60, 4⟩, ⟨0, 4⟩]), ("us-east-1ab", [⟨60, 8⟩, ⟨0, 8⟩])]
      ["us-east-1ab"]
      (fun z => if z.1 = "us-east-1a" then (4 : ℚ) else 8) ?_ ?_
    · rw [h.1]
      norm_num +decide [zoneIncluded, containsSubstr, charsContain, leadsWith,
        String.intercalate]
    · intro z hz _
      simp only [List.mem_cons, List.not_mem_nil, or_false] at hz
      rcases hz with rfl | rfl
      · norm_num +decide [calculateSpotAggregate, sortDesc, insertDesc, fdiv,
          List.range_succ]
      · norm_num +decide [calculateSpotAggregate, sortDesc, insertDesc, fdiv,
          List.range_succ]
    · norm_num +decide [zoneIncluded, containsSubstr, charsContain, leadsWith,
        String.intercalate]

/-- A well-formed pricing record: instance type "m5.large" at 5 USD/hour. -/
def sampleDoc : PricingDoc :=
  [("product", JVal.obj [("attributes", JVal.obj [("instanceType", JVal.str "m5.large")])]),
   ("terms", JVal.obj [("OnDemand", JVal.obj [("X", JVal.obj [("priceDimensions",
      JVal.obj [("Y", JVal.obj [("pricePerUnit",
        JVal.obj [("USD", JVal.str "5")])])])])])])]

/-- A malformed pricing record whose `product` object has no `attributes`
key: the parser reports it as a parse error (not a panic). -/
def badDoc : PricingDoc := [("product", JVal.obj [])]

/-- A well-formed spot price history record. -/
def sampleSpotRec : SpotPriceRecord := ⟨"m5.large", "us-east-1a", "5", 30⟩

/-- A spot price history record whose price string does not parse. -/
def badSpotRec : SpotPriceRecord := ⟨"m5.large", "us-east-1b", "NotANumber", 40⟩

/-- Claim C6.  The claim states that the on-demand document parser is a pure
total function whose every failure yields a `ParseError`, never any other
outcome such as a crash.  The code is not total: on the empty record `{}`
the map index `priceList["product"]` yields the nil interface and the
single-value type assertion `.(map[string]interface{})` panics at runtime
instead of returning an error. -/
theorem parse_ondemand_panics_on_record_without_product :
    parseOndemandUnitPrice [] = ParseResult.goPanic "interface conversion" := rfl

/-- Claim C7.  A transport failure makes either hydration return the
transport error with the entire prior state — caches and freshness
timestamps — unchanged, and a successful `HydrateOndemandCache` commits
`lastOnDemandCacheUTC = some cTime`, which is non-null and (the clock being
monotone, `t0 ≤ cTime`) at or after the start of the call. -/
theorem hydration_transport_failure_preserves_state
    (p : EC2PricingState) (msg : String) (t0 cTime : ℚ)
    (pages : List (List PricingDoc))
    (pr : List (String × ℚ) × List String)
    (ht : t0 ≤ cTime)
    (hpass : hydrateOndemandPassAux [] [] pages.flatten = CallResult.returned pr) :
    hydrateOndemandCache p (FetchResult.transportError msg) cTime
      = CallResult.returned (p, some (GoError.apiError msg))
    ∧ hydrateSpotCache p (FetchResult.transportError msg) cTime
      = (p, some (GoError.apiError msg))
    ∧ hydrateOndemandCache p (FetchResult.ok pages) cTime
      = CallResult.returned
          ({ p with onDemandCache := pr.1, lastOnDemandCacheUTC := some cTime },
            if pr.2.isEmpty then none else some (GoError.parseErrors pr.2))
    ∧ (some cTime ≠ (none : Option ℚ) ∧ t0 ≤ cTime) := by
  obtain ⟨cache, errs⟩ := pr
  refine ⟨rfl, rfl, ?_, by simp, ht⟩
  simp only [hydrateOndemandCache, hpass]

/-- Witness for C7: a concrete transport failure leaves the empty state
untouched, and a successful hydration of one well-formed record stamps the
timestamp `5 ≥ 3`. -/
theorem hydration_transport_failure_preserves_state_witness :
    (3 : ℚ) ≤ 5
    ∧ hydrateOndemandCache ⟨[], [], none, none⟩ (FetchResult.transportError "boom") 5
        = CallResult.returned (⟨[], [], none, none⟩, some (GoError.apiError "boom"))
    ∧ hydrateOndemandCache ⟨[], [], none, none⟩ (FetchResult.ok [[sampleDoc]]) 5
        = CallResult.returned (⟨[("m5.large", 5)], [], some 5, none⟩, none) := by
  have h := hydration_transport_failure_preserves_state ⟨[], [], none, none⟩ "boom" 3 5
    [[sampleDoc]] ([("m5.large", 5)], []) (by norm_num) ?hpass
  case hpass =>
    norm_num +decide [hydrateOndemandPassAux, parseOndemandUnitPrice, parseTermsPart,
      parseDimsLoop, lookupJ, parseFloatQ, digitsValAux, insertAssoc, sampleDoc]
  exact ⟨h.2.2.2.2, h.1, h.2.2.1.trans (by simp)⟩

/-- Claim C8.  When the fetch succeeds but some records fail to parse
(without panicking, for the on-demand document parser), hydration is not
aborted: the cache built from exactly the successfully parsed subset is
committed together with a fresh timestamp, and the per-record parse errors
are aggregated, in order, into the single combined error value returned. -/
theorem partial_parse_failure_commits_subset_and_aggregates_errors
    (p : EC2PricingState) (cTime : ℚ)
    (pages : List (List PricingDoc)) (spages : List (List SpotPriceRecord))
    (hnp : ∀ d ∈ pages.flatten, (parseOndemandUnitPrice d).isGoPanic = false)
    (hfail : ondemandParseFailures pages.flatten ≠ [])
    (hsfail : spotParseFailures spages.flatten ≠ []) :
    hydrateOndemandCache p (FetchResult.ok pages) cTime
      = CallResult.returned
          ({ p with
              onDemandCache := buildOndemandCache (ondemandParsedSubset pages.flatten),
              lastOnDemandCacheUTC := some cTime },
            some (GoError.parseErrors (ondemandParseFailures pages.flatten)))
    ∧ hydrateSpotCache p (FetchResult.ok spages) cTime
      = ({ p with
            spotCache := buildSpotCache (spotParsedSubset spages.flatten),
            lastSpotCacheUTC := some cTime },
          some (GoError.parseErrors (spotParseFailures spages.flatten))) := by
  constructor
  · have hemp : (ondemandParseFailures pages.flatten).isEmpty = false := by
      cases h : ondemandParseFailures pages.flatten with
      | nil => exact absurd h hfail
      | cons a t => simp
    simp only [hydrateOndemandCache,
      hydrateOndemandPassAux_eq pages.flatten [] [] hnp, List.nil_append, hemp,
      Bool.false_eq_true, if_false, buildOndemandCache]
  · have hemp : (spotParseFailures spages.flatten).isEmpty = false := by
      cases h : spotParseFailures spages.flatten with
      | nil => exact absurd h hsfail
      | cons a t => simp
    simp only [hydrateSpotCache, hydrateSpotPassAux_eq spages.flatten [] [],
      List.nil_append, hemp, Bool.false_eq_true, if_false, buildSpotCache]

/-- Witness for C8: hydrating one well-formed and one malformed record (in
both caches) commits the parsed record and returns the single aggregated
parse error. -/
theorem partial_parse_failure_commits_subset_witness :
    ondemandParseFailures [[sampleDoc, badDoc]].flatten ≠ []
    ∧ hydrateOndemandCache ⟨[], [], none, none⟩ (FetchResult.ok [[sampleDoc, badDoc]]) 5
        = CallResult.returned (⟨[("m5.large", 5)], [], some 5, none⟩,
            some (GoError.parseErrors ["Unable to find product attributes"]))
    ∧ hydrateSpotCache ⟨[], [], none, none⟩
          (FetchResult.ok [[sampleSpotRec, badSpotRec]]) 5
        = (⟨[], [("m5.large", [("us-east-1a", [⟨30, 5⟩])])], none, some 5⟩,
            some (GoError.parseErrors ["NotANumber"])) := by
  have h := partial_parse_failure_commits_subset_and_aggregates_errors
    ⟨[], [], none, none⟩ 5 [[sampleDoc, badDoc]] [[sampleSpotRec, badSpotRec]]
    ?hnp ?hfail ?hsfail
  case hnp =>
    intro d hd
    simp only [List.flatten, List.append_nil, List.mem_cons, List.not_mem_nil,
      or_false] at hd
    rcases hd with rfl | rfl
    · norm_num +decide [parseOndemandUnitPrice, parseTermsPart, parseDimsLoop,
        lookupJ, parseFloatQ, digitsValAux, sampleDoc, ParseResult.isGoPanic]
    · norm_num +decide [parseOndemandUnitPrice, parseTermsPart, parseDimsLoop,
        lookupJ, parseFloatQ, digitsValAux, badDoc, ParseResult.isGoPanic]
  case hfail =>
    norm_num +decide [ondemandParseFailures, parseOndemandUnitPrice, parseTermsPart,
      parseDimsLoop, lookupJ, parseFloatQ, digitsValAux, sampleDoc, badDoc]
  case hsfail =>
    norm_num +decide [spotParseFailures, parseFloatQ, digitsValAux, sampleSpotRec,
      badSpotRec]
  refine ⟨?_, h.1.trans ?_, h.2.trans ?_⟩
  · norm_num +decide [ondemandParseFailures, parseOndemandUnitPrice, parseTermsPart,
      parseDimsLoop, lookupJ, parseFloatQ, digitsValAux, sampleDoc, badDoc]
  · norm_num +decide [ondemandParseFailures, ondemandParsedSubset, buildOndemandCache,
      insertAssoc, parseOndemandUnitPrice, parseTermsPart, parseDimsLoop, lookupJ,
      parseFloatQ, digitsValAux, sampleDoc, badDoc]
  · norm_num +decide [spotParseFailures, spotParsedSubset, buildSpotCache,
      appendSpotEntry, appendZoneEntry, parseFloatQ, digitsValAux, sampleSpotRec,
      badSpotRec]

/-- Counterexample for claim C9.  The claim states that a cache-miss query
whose fetch and parse succeed adds the queried instance type's price to the
on-demand cache.  `GetOndemandInstanceTypeCost` contains no write to
`p.onDemandCache`: starting from the empty state, the query for "m5.large"
returns the fetched $5 price but the returned state still has an empty
on-demand cache, so a lookup of the queried key still misses. -/
theorem ondemand_query_miss_leaves_cache_empty :
    getOndemandInstanceTypeCost ⟨[], [], none, none⟩ "m5.large"
        (FetchResult.ok [[sampleDoc]])
      = CallResult.returned (⟨[], [], none, none⟩, 5, none)
    ∧ lookupAssoc (⟨[], [], none, none⟩ : EC2PricingState).onDemandCache "m5.large"
        = none := by
  constructor
  · norm_num +decide [getOndemandInstanceTypeCost, lookupAssoc, processPages,
      processPage, parseOndemandUnitPrice, parseTermsPart, parseDimsLoop, lookupJ,
      parseFloatQ, digitsValAux, sampleDoc]
  · rfl

/-- Claim C9 as amended.  A query for an instance type that misses the cache
and whose fetch and parse succeed returns the parsed price with a nil error,
but does NOT populate the on-demand cache — the state it hands back is the
input state, caches and freshness timestamps identical. -/
theorem ondemand_query_miss_returns_price_without_caching
    (p : EC2PricingState) (instanceType : String)
    (pages : List (List PricingDoc)) (q : ℚ)
    (hmiss : lookupAssoc p.onDemandCache instanceType = none)
    (hclean : processPages (-1) [] pages = CallResult.returned (q, [])) :
    getOndemandInstanceTypeCost p instanceType (FetchResult.ok pages)
      = CallResult.returned (p, q, none) := by
  simp only [getOndemandInstanceTypeCost, hmiss, hclean, List.isEmpty_nil, if_true]

/-- Witness for the amended C9 at a concrete miss with one well-formed
record. -/
theorem ondemand_query_miss_returns_price_without_caching_witness :
    lookupAssoc (⟨[], [], none, none⟩ : EC2PricingState).onDemandCache "m5.large"
      = none
    ∧ getOndemandInstanceTypeCost ⟨[], [], none, none⟩ "m5.large"
        (FetchResult.ok [[sampleDoc]])
      = CallResult.returned (⟨[], [], none, none⟩, 5, none) := by
  refine ⟨rfl, ondemand_query_miss_returns_price_without_caching _ _ _ _ rfl ?_⟩
  norm_num +decide [processPages, processPage, parseOndemandUnitPrice, parseTermsPart,
    parseDimsLoop, lookupJ, parseFloatQ, digitsValAux, sampleDoc]

/-- Claim C10.  For an instance type absent from the cache, a fetch that
succeeds with zero pricing records leaves the initial sentinel `-1` in
place and the error nil: the caller gets `(-1, nil)` and no indication of
failure. -/
theorem zero_records_returns_sentinel_with_nil_error
    (p : EC2PricingState) (instanceType : String)
    (hmiss : lookupAssoc p.onDemandCache instanceType = none) :
    getOndemandInstanceTypeCost p instanceType (FetchResult.ok [])
      = CallResult.returned (p, -1, none) := by
  simp only [getOndemandInstanceTypeCost, hmiss, processPages, List.isEmpty_nil,
    if_true]

/-- Witness for C10 at the empty state. -/
theorem zero_records_returns_sentinel_witness :
    lookupAssoc (⟨[], [], none, none⟩ : EC2PricingState).onDemandCache "m5.large"
      = none
    ∧ getOndemandInstanceTypeCost ⟨[], [], none, none⟩ "m5.large" (FetchResult.ok [])
      = CallResult.returned (⟨[], [], none, none⟩, -1, none) :=
  ⟨rfl, zero_records_returns_sentinel_with_nil_error ⟨[], [], none, none⟩ "m5.large" rfl⟩

end EC2PricingModel
